import Mathlib

/-
Verification development for the `dangerous` input-parsing library core.

The sources mix two revisions of the crate:
  * `src/error/expected.rs`, `src/error/context.rs`, `src/error/fatal.rs`
    use the older error API: errors carry `span`/`input` as `&Input` views,
    `ExpectedLength` carries raw `min`/`max` fields.
  * `src/input/traits.rs` and `src/macros.rs` use the newer input API:
    `Bytes` carries a `Bound`, length errors are built from a `Length`
    requirement value.
Both shapes are embedded below.  Bytes are modelled as `Nat`s, borrowed
slices and input views as (backing list, start offset, stop offset)
triples so that pointer-range comparisons (`is_within`, `span_of`) are
expressible.  Definitions whose Rust source is not among the provided
files (e.g. `Reader`, `Length`, `RetryRequirement::from_had_and_needed`,
`Input::has_prefix`) are modelled from the specification and marked so.
-/

/-- Old-API input view (`Input` in `error/expected.rs`): a borrowed byte
slice, modelled as a window `[start, stop)` into the backing allocation
`orig` so that pointer-range inclusion is expressible. -/
structure Input where
  orig : List Nat
  start : Nat
  stop : Nat
  deriving DecidableEq

/-- Bytes exposed by the view (`Input::as_dangerous`). -/
def Input.as_dangerous (i : Input) : List Nat :=
  (i.orig.drop i.start).take (i.stop - i.start)

/-- Byte length of the view (`Input::len`). -/
def Input.len (i : Input) : Nat :=
  i.as_dangerous.length

/-- Modelled from the spec: `Input::is_within` / `slice::is_sub_slice`
(not under `src/`) — "Sub-views compare as within when their pointer
range lies inside the parent's pointer range". -/
def Input.is_within (sub parent : Input) : Bool :=
  decide (sub.orig = parent.orig ∧ parent.start ≤ sub.start ∧ sub.stop ≤ parent.stop)

/-- Modelled from the spec: `Input::has_prefix` (not under `src/`) —
whether the byte list `l` starts with the byte list `p`. -/
def has_pfx (l p : List Nat) : Bool :=
  List.isPrefixOf p l

/-- Modelled from the spec: `RetryRequirement::from_had_and_needed`
(`error/retry.rs` is not under `src/`): `Some(needed - had)` if
`had < needed` else `None`. -/
def from_had_and_needed (had needed : Nat) : Option Nat :=
  if had < needed then some (needed - had) else none

/-- A context value as observable through the `Context` trait of
`error/context.rs`: an `operation` and an optional `expected` display. -/
structure ContextData where
  operation : String
  expected : Option String
  deriving DecidableEq

/-- The `impl Context for &'static str` of `error/context.rs`:
`operation()` is the fixed string "read", `expected()` is the string
itself. -/
def str_context (s : String) : ContextData :=
  { operation := "read", expected := some s }

/-- `ExpectedContext` of `error/context.rs`: operation plus expected,
both static strings. -/
structure ExpectedContext where
  operation : String
  expected : String
  deriving DecidableEq

/-- The `Value` enum of `error/expected.rs`. -/
inductive Value where
  | byte (b : Nat)
  | bytes (bs : List Nat)
  deriving DecidableEq

/-- `Value::as_input` of `error/expected.rs`, reduced to the bytes the
resulting input exposes. -/
def Value.as_input : Value → List Nat
  | .byte b => [b]
  | .bytes bs => bs

/-- `ExpectedValue` of `error/expected.rs`. -/
structure ExpectedValue where
  value : Value
  span : Input
  input : Input
  context : ExpectedContext
  deriving DecidableEq

/-- `ExpectedValue::is_fatal` of `error/expected.rs`:
`!self.value.as_input().has_prefix(self.span.as_dangerous())`. -/
def ExpectedValue.is_fatal (e : ExpectedValue) : Bool :=
  !(has_pfx e.value.as_input e.span.as_dangerous)

/-- `ExpectedValue::to_retry_requirement` of `error/expected.rs`. -/
def ExpectedValue.to_retry_requirement (e : ExpectedValue) : Option Nat :=
  if e.is_fatal then none
  else from_had_and_needed e.span.len e.value.as_input.length

/-- `ExpectedValue::update_input` of `error/expected.rs`. -/
def ExpectedValue.update_input (e : ExpectedValue) (input : Input) : ExpectedValue :=
  if e.input.is_within input then { e with input := input } else e

/-- `ExpectedValue::with_context` of `error/expected.rs`: the context is
ignored, only `update_input` runs. -/
def ExpectedValue.with_context (e : ExpectedValue) (input : Input) (_context : ContextData) : ExpectedValue :=
  e.update_input input

/-- `ExpectedLength` of `error/expected.rs` (older API with raw
`min`/`max` fields). -/
structure ExpectedLength where
  min : Nat
  max : Option Nat
  span : Input
  input : Input
  context : ExpectedContext
  deriving DecidableEq

/-- `ExpectedLength::is_fatal` of `error/expected.rs`:
`self.max.is_some()`. -/
def ExpectedLength.is_fatal (e : ExpectedLength) : Bool :=
  e.max.isSome

/-- `ExpectedLength::to_retry_requirement` of `error/expected.rs`. -/
def ExpectedLength.to_retry_requirement (e : ExpectedLength) : Option Nat :=
  if e.is_fatal then none
  else from_had_and_needed e.span.len e.min

/-- `ExpectedLength::update_input` of `error/expected.rs`. -/
def ExpectedLength.update_input (e : ExpectedLength) (input : Input) : ExpectedLength :=
  if e.input.is_within input then { e with input := input } else e

/-- `ExpectedLength::with_context` of `error/expected.rs`. -/
def ExpectedLength.with_context (e : ExpectedLength) (input : Input) (_context : ContextData) : ExpectedLength :=
  e.update_input input

/-- `ExpectedValid` of `error/expected.rs`. -/
structure ExpectedValid where
  span : Input
  input : Input
  context : ExpectedContext
  retry_requirement : Option Nat
  deriving DecidableEq

/-- `ExpectedValid::update_input` of `error/expected.rs`. -/
def ExpectedValid.update_input (e : ExpectedValid) (input : Input) : ExpectedValid :=
  if e.input.is_within input then { e with input := input } else e

/-- `ExpectedValid::with_context` of `error/expected.rs`. -/
def ExpectedValid.with_context (e : ExpectedValid) (input : Input) (_context : ContextData) : ExpectedValid :=
  e.update_input input

/-- `ExpectedValid::to_retry_requirement` of `error/expected.rs`:
returns the stored optional. -/
def ExpectedValid.to_retry_requirement (e : ExpectedValid) : Option Nat :=
  e.retry_requirement

/- ------------------------------------------------------------------
Context chain (`error/context.rs`, `mod context_chain`).
------------------------------------------------------------------- -/

/-- `ContextChain` of `error/context.rs`: `this: Box<dyn Context>` plus
`child: Option<Box<dyn ParentContext>>`.  `root c` is a chain with
`child == None`; `link c ch` has `child == Some ch`. -/
inductive ContextChain where
  | root (this : ContextData)
  | link (this : ContextData) (child : ContextChain)
  deriving DecidableEq

/-- `ContextChain::new` of `error/context.rs`. -/
def ContextChain.new (context : ContextData) : ContextChain :=
  .root context

/-- `ContextChain::with_parent` of `error/context.rs`: the new context
becomes `this` (the head) and the previous chain becomes `child`. -/
def ContextChain.with_parent (self : ContextChain) (parent : ContextData) : ContextChain :=
  .link parent self

/-- `ParentContext::child` for `ContextChain` of `error/context.rs`. -/
def ContextChain.child : ContextChain → Option ContextChain
  | .root _ => Option.none
  | .link _ ch => some ch

/-- The head context of a chain (`Context::operation`/`expected`
delegate to `this`). -/
def ContextChain.this_context : ContextChain → ContextData
  | .root c => c
  | .link c _ => c

/-- Walking a chain via repeated `child()` calls: the head context
first, then the contexts reached through `child`. -/
def ContextChain.walk : ContextChain → List ContextData
  | .root c => [c]
  | .link c ch => c :: ch.walk

/- ------------------------------------------------------------------
New-API input (`input/traits.rs`) and its length error.
------------------------------------------------------------------- -/

/-- The `Bound` enum of the newer input API (`input/bound.rs` is not
under `src/`; states from the spec data model). -/
inductive Bound where
  | none
  | start
  | both
  deriving DecidableEq

/-- Modelled from the spec: closing the end of a bound when a split
point gives a view a definite end (`input/bound.rs` not under
`src/`). -/
def Bound.close_end (_b : Bound) : Bound :=
  .both

/-- Modelled from the spec: `into_unbound_end` "weakens the bound so
the end is not anchored" (`input/bound.rs` not under `src/`): the start
anchoring is kept, the end anchoring is dropped. -/
def Bound.open_end : Bound → Bound
  | .both => .start
  | .start => .start
  | .none => .none

/-- New-API `Bytes` input: a window into the backing allocation plus a
`Bound` (`input/bytes.rs` is not under `src/`; shape from the spec data
model). -/
structure Bytes where
  orig : List Nat
  start : Nat
  stop : Nat
  bound : Bound
  deriving DecidableEq

/-- Bytes exposed by the view (`Bytes::as_dangerous`). -/
def Bytes.as_dangerous (i : Bytes) : List Nat :=
  (i.orig.drop i.start).take (i.stop - i.start)

/-- `Input::byte_len` of `input/traits.rs`. -/
def Bytes.byte_len (i : Bytes) : Nat :=
  i.as_dangerous.length

/-- The borrowed byte slice `as_dangerous_bytes()` of `input/traits.rs`
as a positioned slice (pointer + length). -/
def Bytes.to_slice (i : Bytes) : Input :=
  { orig := i.orig, start := i.start, stop := i.stop }

/-- `Input::is_within` of `input/traits.rs`: pointer-range inclusion. -/
def Bytes.is_within (sub parent : Bytes) : Bool :=
  decide (sub.orig = parent.orig ∧ parent.start ≤ sub.start ∧ sub.stop ≤ parent.stop)

/-- `Private::into_unbound_end` of `input/traits.rs` (implementation
modelled from the spec since `input/bytes.rs` is not under `src/`). -/
def Bytes.into_unbound_end (i : Bytes) : Bytes :=
  { i with bound := i.bound.open_end }

/-- `Private::split_at_byte_unchecked` of `input/traits.rs` for `Bytes`
(implementation modelled from the spec): raw byte split at `mid`; the
head gains a definite end, the tail keeps the original bound. -/
def Bytes.split_at_byte_unchecked (i : Bytes) (mid : Nat) : Bytes × Bytes :=
  ({ orig := i.orig, start := i.start, stop := i.start + mid, bound := i.bound.close_end },
   { orig := i.orig, start := i.start + mid, stop := i.stop, bound := i.bound })

/-- `Private::split_at_opt` of `input/traits.rs` for `Bytes`
(implementation modelled from the spec): `None` if `mid` is out of
range. -/
def Bytes.split_at_opt (i : Bytes) (mid : Nat) : Option (Bytes × Bytes) :=
  if mid ≤ i.byte_len then some (i.split_at_byte_unchecked mid) else none

/-- The free function `dangerous::input` for a byte slice: a fresh view
with `Bound::Start`. -/
def mk_input (l : List Nat) : Bytes :=
  { orig := l, start := 0, stop := l.length, bound := .start }

/-- `Length` requirement of the newer error API (`error/length.rs` is
not under `src/`; variants modelled from the spec `Requirement`). -/
inductive Length where
  | at_least (n : Nat)
  | at_most (n : Nat)
  | exactly (n : Nat)
  | between (mn mx : Nat)
  deriving DecidableEq

/-- Minimum of a `Length` requirement (modelled from the spec). -/
def Length.min : Length → Nat
  | .at_least n => n
  | .at_most _ => 0
  | .exactly n => n
  | .between mn _ => mn

/-- Maximum of a `Length` requirement, if one exists (modelled from the
spec). -/
def Length.max : Length → Option Nat
  | .at_least _ => Option.none
  | .at_most n => some n
  | .exactly n => some n
  | .between _ mx => some mx

/-- The `ExpectedLength` shape constructed by `input/traits.rs`
(newer API): a `Length` requirement, a span slice, the input and a
context. -/
structure ExpectedLengthB where
  len : Length
  span : Input
  input : Bytes
  context : ExpectedContext
  deriving DecidableEq

/-- `is_fatal` for the newer `ExpectedLength` shape: true iff the
requirement records an upper bound (`self.max.is_some()` in
`error/expected.rs`, applied to `Length::max`). -/
def ExpectedLengthB.is_fatal (e : ExpectedLengthB) : Bool :=
  e.len.max.isSome

/-- `to_retry_requirement` for the newer `ExpectedLength` shape,
following `error/expected.rs`: `None` when fatal, otherwise
`from_had_and_needed(span.len, min)`. -/
def ExpectedLengthB.to_retry_requirement (e : ExpectedLengthB) : Option Nat :=
  if e.is_fatal then none
  else from_had_and_needed e.span.len e.len.min

/-- `with_context` for the newer `ExpectedLength` shape: widen the
stored input when it is within the given one. -/
def ExpectedLengthB.with_context (e : ExpectedLengthB) (input : Bytes) : ExpectedLengthB :=
  if e.input.is_within input then { e with input := input } else e

/-- `PrivateExt::split_at` of `input/traits.rs`: split or build an
`ExpectedLength` error with `Length::AtLeast(mid)`. -/
def split_at (i : Bytes) (mid : Nat) (operation : String) : Except ExpectedLengthB (Bytes × Bytes) :=
  match i.split_at_opt mid with
  | some p => .ok p
  | Option.none =>
    .error { len := .at_least mid, span := i.to_slice, input := i,
             context := { operation := operation, expected := "enough input" } }

/-- Modelled from the spec: `Reader::take` (`reader.rs` is not under
`src/`): `try_advance(|input| input.split_at(len, "take"))`.  The
reader state is the remaining input; the result is the taken head and
the new state. -/
def take (n : Nat) (s : Bytes) : Except ExpectedLengthB (Bytes × Bytes) :=
  split_at s n "take"

/-- `Input::read_all` of `input/traits.rs`.  The reader is modelled by
explicit state passing: `f` maps the entry state to a value and the
remaining state.  The `r.context(OperationContext("read all"), f)` call
is the inner match (`with_context` on the error path); on `Ok` with
input remaining the trailing-input error is built with
`Length::Exactly(0)` and span `r.take_remaining()`. -/
def read_all {T : Type} (f : Bytes → Except ExpectedLengthB (T × Bytes)) (i : Bytes) : Except ExpectedLengthB T :=
  match (match f i with
         | .ok p => Except.ok p
         | .error e => Except.error (e.with_context i)) with
  | .ok (ok, s) =>
    if s.byte_len = 0 then .ok ok
    else .error { len := .exactly 0, span := s.to_slice, input := i,
                  context := { operation := "read all", expected := "no trailing input" } }
  | .error e => .error e

/-- `PrivateExt::split_consumed` of `input/traits.rs`.  The reader is
modelled by the state transform `f`; `take_remaining` yields `f i`. -/
def split_consumed (f : Bytes → Bytes) (i : Bytes) : Bytes × Bytes :=
  let tail := f i
  let mid := i.byte_len - tail.byte_len
  let head := (i.split_at_byte_unchecked mid).1
  if tail.bound = Bound.none then (head.into_unbound_end, tail) else (head, tail)

/-- Modelled from the spec: `split_array` (`input/bytes.rs` is not
under `src/`): take a fixed-size byte array off the front, erroring
like `split_at`. -/
def split_array (n : Nat) (operation : String) (i : Bytes) : Except ExpectedLengthB (List Nat × Bytes) :=
  match split_at i n operation with
  | .ok p => .ok (p.1.as_dangerous, p.2)
  | .error e => .error e

/-- Big-endian decode of a byte list (`$ty::from_be_bytes` in
`macros.rs`). -/
def from_be_bytes (l : List Nat) : Nat :=
  l.foldl (fun acc b => acc * 256 + b) 0

/-- Little-endian decode of a byte list (`$ty::from_le_bytes` in
`macros.rs`). -/
def from_le_bytes (l : List Nat) : Nat :=
  from_be_bytes l.reverse

/-- `read_u32_be` generated by `impl_read_num` in `macros.rs`:
`split_array` then `from_be_bytes`. -/
def read_u32_be (i : Bytes) : Except ExpectedLengthB (Nat × Bytes) :=
  match split_array 4 "read big-endian u32" i with
  | .ok (arr, next) => .ok (from_be_bytes arr, next)
  | .error e => .error e

/-- `read_u32_le` generated by `impl_read_num` in `macros.rs`. -/
def read_u32_le (i : Bytes) : Except ExpectedLengthB (Nat × Bytes) :=
  match split_array 4 "read little-endian u32" i with
  | .ok (arr, next) => .ok (from_le_bytes arr, next)
  | .error e => .error e

/-- `read_u16_be` generated by `impl_read_num` in `macros.rs`. -/
def read_u16_be (i : Bytes) : Except ExpectedLengthB (Nat × Bytes) :=
  match split_array 2 "read big-endian u16" i with
  | .ok (arr, next) => .ok (from_be_bytes arr, next)
  | .error e => .error e

/-- `read_u16_le` generated by `impl_read_num` in `macros.rs`. -/
def read_u16_le (i : Bytes) : Except ExpectedLengthB (Nat × Bytes) :=
  match split_array 2 "read little-endian u16" i with
  | .ok (arr, next) => .ok (from_le_bytes arr, next)
  | .error e => .error e

/- ------------------------------------------------------------------
UTF-8 helpers and `CharIter` (`string.rs`).
------------------------------------------------------------------- -/

/-- The `UTF8_CHAR_LENGTH` table of `string.rs`: 1 for `0x00..=0x7F`,
0 for `0x80..=0xC1`, 2 for `0xC2..=0xDF`, 3 for `0xE0..=0xEF`, 4 for
`0xF0..=0xF4`, 0 for `0xF5..=0xFF`. -/
def UTF8_CHAR_LENGTH : List Nat :=
  List.replicate 128 1 ++ List.replicate 66 0 ++ List.replicate 30 2 ++
    List.replicate 16 3 ++ List.replicate 5 4 ++ List.replicate 11 0

/-- `utf8_char_len` of `string.rs`. -/
def utf8_char_len (b : Nat) : Nat :=
  UTF8_CHAR_LENGTH.getD b 0

/-- `utf8_is_cont_byte` of `string.rs`: `(byte & 0b1100_0000) ==
0b1000_0000`. -/
def utf8_is_cont_byte (b : Nat) : Bool :=
  b &&& 192 == 128

/-- Value bits of a continuation byte (`byte & CONT_MASK`). -/
def cont_val (b : Nat) : Nat :=
  b &&& 63

/-- Valid range of the first continuation byte of a three-byte
sequence, per the standard UTF-8 well-formedness table used by
`str::from_utf8`. -/
def utf8_cont3_first_ok (b c1 : Nat) : Bool :=
  if b = 224 then decide (160 ≤ c1 ∧ c1 ≤ 191)
  else if b = 237 then decide (128 ≤ c1 ∧ c1 ≤ 159)
  else utf8_is_cont_byte c1

/-- Valid range of the first continuation byte of a four-byte sequence,
per the standard UTF-8 well-formedness table used by `str::from_utf8`. -/
def utf8_cont4_first_ok (b c1 : Nat) : Bool :=
  if b = 240 then decide (144 ≤ c1 ∧ c1 ≤ 191)
  else if b = 244 then decide (128 ≤ c1 ∧ c1 ≤ 143)
  else utf8_is_cont_byte c1

/-- Decode the first UTF-8 scalar of a byte list, returning the scalar
value and the remaining bytes; `none` on ill-formed input.  This models
the UTF-8 validation performed by `str::from_utf8` in `parse_char` of
`string.rs`. -/
def utf8_decode_one : List Nat → Option (Nat × List Nat)
  | [] => Option.none
  | b :: rest =>
    if b < 128 then some (b, rest)
    else if 194 ≤ b then
      if b ≤ 223 then
        match rest with
        | c1 :: r =>
          if utf8_is_cont_byte c1 then some ((b - 192) * 64 + cont_val c1, r) else Option.none
        | [] => Option.none
      else if b ≤ 239 then
        match rest with
        | c1 :: c2 :: r =>
          if utf8_cont3_first_ok b c1 && utf8_is_cont_byte c2 then
            some ((b - 224) * 4096 + cont_val c1 * 64 + cont_val c2, r)
          else Option.none
        | _ => Option.none
      else if b ≤ 244 then
        match rest with
        | c1 :: c2 :: c3 :: r =>
          if utf8_cont4_first_ok b c1 && utf8_is_cont_byte c2 && utf8_is_cont_byte c3 then
            some ((b - 240) * 262144 + cont_val c1 * 4096 + cont_val c2 * 64 + cont_val c3, r)
          else Option.none
        | _ => Option.none
      else Option.none
    else Option.none

/-- Whole-list UTF-8 validity (fuelled; each step strips at least one
byte so `fuel = length` always suffices). -/
def utf8_validate_fuel : Nat → List Nat → Bool
  | _, [] => true
  | 0, _ :: _ => false
  | fuel + 1, l =>
    match utf8_decode_one l with
    | some (_, r) => utf8_validate_fuel fuel r
    | Option.none => false

/-- Whole-list UTF-8 validity, modelling `str::from_utf8(..).is_ok()`. -/
def utf8_validate (l : List Nat) : Bool :=
  utf8_validate_fuel l.length l

/-- `parse_char` of `string.rs`: `str::from_utf8(bytes)` then
`s.chars().next()` — the whole slice must be valid UTF-8 and non-empty,
and the first scalar is returned. -/
def parse_char (bytes : List Nat) : Option Nat :=
  if utf8_validate bytes then
    match utf8_decode_one bytes with
    | some (c, _) => some c
    | Option.none => Option.none
  else Option.none

/-- `char::len_utf8` for a scalar value. -/
def len_utf8 (c : Nat) : Nat :=
  if c < 128 then 1 else if c < 2048 then 2 else if c < 65536 then 3 else 4

/-- `first_codepoint` of `string.rs`. -/
def first_codepoint (bytes : List Nat) : Option Nat :=
  match bytes.head? with
  | some first_byte =>
    if utf8_char_len first_byte ≤ bytes.length then
      parse_char (bytes.take (utf8_char_len first_byte))
    else Option.none
  | Option.none => Option.none

/-- Loop condition of `last_codepoint` in `string.rs` at reverse index
`i` (1-based): the byte exists, is not a continuation byte, and its
`utf8_char_len` equals `i`. -/
def last_cp_cond (bytes : List Nat) (i : Nat) : Bool :=
  decide (i ≤ bytes.length) &&
    !utf8_is_cont_byte (bytes.getD (bytes.length - i) 0) &&
    decide (utf8_char_len (bytes.getD (bytes.length - i) 0) = i)

/-- `last_codepoint` of `string.rs`: scan at most the last four bytes
for a leading byte whose length reaches exactly to the end; parse from
there.  The `(1..=4).zip(rev)` loop is unrolled. -/
def last_codepoint (bytes : List Nat) : Option Nat :=
  if bytes.isEmpty then Option.none
  else if last_cp_cond bytes 1 then parse_char (bytes.drop (bytes.length - 1))
  else if last_cp_cond bytes 2 then parse_char (bytes.drop (bytes.length - 2))
  else if last_cp_cond bytes 3 then parse_char (bytes.drop (bytes.length - 3))
  else if last_cp_cond bytes 4 then parse_char (bytes.drop (bytes.length - 4))
  else Option.none

/-- `CharIter` of `string.rs`. -/
structure CharIter where
  forward : Nat
  backward : Nat
  bytes : List Nat
  deriving DecidableEq

/-- `CharIter::new` of `string.rs`. -/
def CharIter.new (bytes : List Nat) : CharIter :=
  { forward := 0, backward := bytes.length, bytes := bytes }

/-- `CharIter::as_slice` of `string.rs`: `&bytes[forward..backward]`. -/
def CharIter.as_slice (it : CharIter) : List Nat :=
  (it.bytes.take it.backward).drop it.forward

/-- `Iterator::next` for `CharIter` of `string.rs`.  The first
component is `None` when the iterator is exhausted, `some none` for
`Some(Err(InvalidChar))` and `some (some c)` for `Some(Ok(c))`; the
second component is the iterator after the call. -/
def CharIter.next (it : CharIter) : Option (Option Nat) × CharIter :=
  if it.forward = it.backward then (Option.none, it)
  else
    match first_codepoint (it.bytes.drop it.forward) with
    | Option.none => (some Option.none, it)
    | some c =>
      let fwd := it.forward + len_utf8 c
      if it.backward < fwd then (some Option.none, { it with forward := it.backward })
      else (some (some c), { it with forward := fwd })

/-- `DoubleEndedIterator::next_back` for `CharIter` of `string.rs`. -/
def CharIter.next_back (it : CharIter) : Option (Option Nat) × CharIter :=
  if it.forward = it.backward then (Option.none, it)
  else
    match last_codepoint (it.bytes.take it.backward) with
    | Option.none => (some Option.none, it)
    | some c =>
      let bwd := it.backward - len_utf8 c
      if bwd < it.forward then (some Option.none, { it with backward := it.forward })
      else (some (some c), { it with backward := bwd })

/-- One call on the iterator: `true` is `next`, `false` is
`next_back`. -/
def CharIter.step (it : CharIter) (dir : Bool) : CharIter :=
  if dir then it.next.2 else it.next_back.2

/-- Run a sequence of `next` / `next_back` calls. -/
def CharIter.run (it : CharIter) (calls : List Bool) : CharIter :=
  calls.foldl CharIter.step it

/-- The cursor invariant of `CharIter`: the forward cursor never passes
the backward cursor, which never passes the end of the bytes. -/
def char_iter_inv (it : CharIter) : Prop :=
  it.forward ≤ it.backward ∧ it.backward ≤ it.bytes.length

/- ------------------------------------------------------------------
Concrete inputs used by counterexamples and witnesses.
------------------------------------------------------------------- -/

/-- An `ExpectedValue` error as produced by `consume(b"foo")` on the
input `b"fo"`: expected bytes `foo`, observed span `fo`. -/
def c1_err : ExpectedValue :=
  { value := .bytes [102, 111, 111],
    span := { orig := [102, 111], start := 0, stop := 2 },
    input := { orig := [102, 111], start := 0, stop := 2 },
    context := { operation := "consume", expected := "exact value" } }

/-- An `ExpectedValue` error whose span equals its expected value: a
non-fatal error with no retry requirement. -/
def c5_err : ExpectedValue :=
  { value := .byte 1,
    span := { orig := [1], start := 0, stop := 1 },
    input := { orig := [1], start := 0, stop := 1 },
    context := { operation := "consume", expected := "exact value" } }

/-- The input `b"abc"` wrapped by `dangerous::input`. -/
def abc_input : Bytes :=
  mk_input [97, 98, 99]

/-- The error `read_all` produces on `b"abc"` when the provided
function takes only two bytes: `Exactly(0)` with span pointing at the
trailing byte `c`. -/
def c3_err : ExpectedLengthB :=
  { len := .exactly 0,
    span := { orig := [97, 98, 99], start := 2, stop := 3 },
    input := abc_input,
    context := { operation := "read all", expected := "no trailing input" } }

/- ------------------------------------------------------------------
Theorems.
------------------------------------------------------------------- -/

/-- C1 counterexample: for the error produced by expecting `b"foo"`
while observing the span `b"fo"`, the expected value is not a prefix of
the span, yet `is_fatal()` is `false` — refuting "fatal iff the
expected value is not a prefix of the span". -/
theorem claim_C1_counterexample :
    ExpectedValue.is_fatal c1_err = false ∧
      List.isPrefixOf (Value.as_input c1_err.value) c1_err.span.as_dangerous = false := by
  decide

/-- C1 (amended): for every `ExpectedValue` error, `is_fatal()` is true
iff the *span* (the observed bytes) is not a prefix of the *expected
value*; when the span is a prefix, the error is retryable. -/
theorem claim_C1 :
    ∀ e : ExpectedValue,
      ExpectedValue.is_fatal e = true ↔
        List.isPrefixOf e.span.as_dangerous e.value.as_input = false := by
  intro e
  cases h : List.isPrefixOf e.span.as_dangerous e.value.as_input <;>
    simp [ExpectedValue.is_fatal, has_pfx, h]

/-- C2: for every `ExpectedLength` error, `is_fatal()` is true iff a
maximum (an upper bound on the length) is recorded — which, per the
documentation of `max()`, signifies the input exceeded it (too much
input). -/
theorem claim_C2 :
    ∀ e : ExpectedLength, ExpectedLength.is_fatal e = true ↔ e.max ≠ Option.none := by
  intro e
  cases h : e.max <;> simp [ExpectedLength.is_fatal, h]

/-- C4 counterexample: pushing the context "outer" onto a chain rooted
at "inner" makes "outer" — the outermost context — the *first* node of
the walk, refuting "the first node visited is the innermost (leaf)
context". -/
theorem claim_C4_counterexample :
    (ContextChain.walk
        (ContextChain.with_parent (ContextChain.new ⟨"inner", Option.none⟩)
          ⟨"outer", Option.none⟩)).head? =
        some ⟨"outer", Option.none⟩ ∧
      (⟨"outer", Option.none⟩ : ContextData) ≠ ⟨"inner", Option.none⟩ := by
  decide

/-- C4 (amended): for every context chain built by successive
`with_context` pushes on top of a leaf context, walking the chain via
`child()` visits the contexts in root-to-leaf order: the first node
visited is the outermost (most recently pushed) context and the last
node visited is the innermost (leaf) context. -/
theorem claim_C4 :
    ∀ (leaf : ContextData) (ps : List ContextData),
      ContextChain.walk (ps.foldl ContextChain.with_parent (ContextChain.new leaf)) =
        ps.reverse ++ [leaf] := by
  have aux : ∀ (ps : List ContextData) (ch : ContextChain),
      ContextChain.walk (ps.foldl ContextChain.with_parent ch) =
        ps.reverse ++ ContextChain.walk ch := by
    intro ps
    induction ps with
    | nil => intro ch; simp
    | cons p ps ih =>
      intro ch
      simp [List.foldl_cons, ih, ContextChain.with_parent, ContextChain.walk]
  intro leaf ps
  rw [aux ps (ContextChain.new leaf)]
  rfl

/-- C5 counterexample: an `ExpectedValue` error whose span equals the
expected value is not fatal, yet `to_retry_requirement()` returns
`None`, not `Some(expected.len - span.len)` (`= Some 0`). -/
theorem claim_C5_counterexample :
    ExpectedValue.is_fatal c5_err = false ∧
      ExpectedValue.to_retry_requirement c5_err = Option.none ∧
      (Value.as_input c5_err.value).length - c5_err.span.len = 0 := by
  decide

/-- C5 (amended): for every non-fatal `ExpectedValue` error,
`to_retry_requirement()` returns `Some(expected.len - span.len)` when
the span is strictly shorter than the expected value, and `None` when
the lengths are equal (the constructor `from_had_and_needed` rejects a
zero delta). -/
theorem claim_C5 :
    ∀ e : ExpectedValue, ExpectedValue.is_fatal e = false →
      ExpectedValue.to_retry_requirement e =
        (if e.span.len < e.value.as_input.length then
          some (e.value.as_input.length - e.span.len)
        else Option.none) := by
  intro e h
  simp [ExpectedValue.to_retry_requirement, h, from_had_and_needed]

/-- C5 witness: the amended statement applied to the concrete non-fatal
error with expected `b"foo"` and span `b"fo"`. -/
theorem claim_C5_witness :
    ExpectedValue.is_fatal c1_err = false ∧
      ExpectedValue.to_retry_requirement c1_err =
        (if c1_err.span.len < c1_err.value.as_input.length then
          some (c1_err.value.as_input.length - c1_err.span.len)
        else Option.none) :=
  ⟨by decide, claim_C5 c1_err (by decide)⟩

/-- C7: for every structured error (`ExpectedValue`, `ExpectedLength`,
`ExpectedValid`), `with_context(input, context)` replaces the stored
input with `input` exactly when the current input is within it, and
leaves the span and every other value field (and the stored context)
unchanged. -/
theorem claim_C7 :
    ∀ (ev : ExpectedValue) (el : ExpectedLength) (evd : ExpectedValid)
      (i : Input) (c : ContextData),
      ((ev.with_context i c).input = (if ev.input.is_within i then i else ev.input) ∧
        (ev.with_context i c).span = ev.span ∧
        (ev.with_context i c).value = ev.value ∧
        (ev.with_context i c).context = ev.context) ∧
      ((el.with_context i c).input = (if el.input.is_within i then i else el.input) ∧
        (el.with_context i c).span = el.span ∧
        (el.with_context i c).min = el.min ∧
        (el.with_context i c).max = el.max ∧
        (el.with_context i c).context = el.context) ∧
      ((evd.with_context i c).input = (if evd.input.is_within i then i else evd.input) ∧
        (evd.with_context i c).span = evd.span ∧
        (evd.with_context i c).retry_requirement = evd.retry_requirement ∧
        (evd.with_context i c).context = evd.context) := by
  intro ev el evd i c
  refine ⟨?_, ?_, ?_⟩
  · cases h : ev.input.is_within i <;>
      simp [ExpectedValue.with_context, ExpectedValue.update_input, h]
  · cases h : el.input.is_within i <;>
      simp [ExpectedLength.with_context, ExpectedLength.update_input, h]
  · cases h : evd.input.is_within i <;>
      simp [ExpectedValid.with_context, ExpectedValid.update_input, h]

/-- C10: a plain static string used as a `Context` always reports the
fixed operation "read" and reports the supplied string itself as what
was expected. -/
theorem claim_C10 :
    ∀ s : String, (str_context s).operation = "read" ∧ (str_context s).expected = some s := by
  intro s
  exact ⟨rfl, rfl⟩

/-- Helper: the byte length of a view never exceeds the width of its
`[start, stop)` window. -/
theorem byte_len_le_window (i : Bytes) : i.byte_len ≤ i.stop - i.start := by
  simp only [Bytes.byte_len, Bytes.as_dangerous, List.length_take]
  exact Nat.min_le_left _ _

/-- Helper: the head of a raw split at a valid index exposes exactly
the first `mid` bytes of the input. -/
theorem split_head_take (i : Bytes) (mid : Nat) (h : mid ≤ i.byte_len) :
    (i.split_at_byte_unchecked mid).1.as_dangerous = i.as_dangerous.take mid := by
  have h2 : mid ≤ i.stop - i.start := le_trans h (byte_len_le_window i)
  simp [Bytes.split_at_byte_unchecked, Bytes.as_dangerous, Nat.add_sub_cancel_left,
    List.take_take, Nat.min_eq_left h2]

/-- C3 counterexample: on `b"abc"`, `read_all` around a function taking
two bytes yields the `Exactly(0)` trailing-input error, whose
`is_fatal()` is `true` — refuting the claimed `is_fatal() = false`. -/
theorem claim_C3_counterexample :
    read_all (take 2) abc_input = Except.error c3_err ∧
      ExpectedLengthB.is_fatal c3_err = true := by
  exact ⟨rfl, by decide⟩

/-- C3 (amended): on input `b"abc"`, `read_all` with a function that
takes 2 bytes and succeeds returns an `ExpectedLength` error whose
length requirement is `Exactly(0)` and whose span points at the
trailing byte `c`; this error has `is_fatal() = true` (an upper bound
is recorded: excess input is fatal) and `to_retry_requirement() =
None`. -/
theorem claim_C3 :
    read_all (take 2) abc_input = Except.error c3_err ∧
      c3_err.len = Length.exactly 0 ∧
      c3_err.span = { orig := [97, 98, 99], start := 2, stop := 3 } ∧
      ExpectedLengthB.is_fatal c3_err = true ∧
      ExpectedLengthB.to_retry_requirement c3_err = Option.none := by
  exact ⟨rfl, rfl, rfl, by decide, by decide⟩

/-- C6: `split_consumed` returns the consumed head and the remaining
tail; whenever the tail's bound is `None` the head is the raw split
head weakened by `into_unbound_end` (its end anchoring is dropped), and
otherwise the head is the raw split head with the bound derived from
the original input (a closed end). -/
theorem claim_C6 :
    ∀ (i : Bytes) (f : Bytes → Bytes),
      split_consumed f i =
        (if (f i).bound = Bound.none then
          ((i.split_at_byte_unchecked (i.byte_len - (f i).byte_len)).1.into_unbound_end, f i)
        else
          ((i.split_at_byte_unchecked (i.byte_len - (f i).byte_len)).1, f i)) ∧
      (split_consumed f i).1.bound =
        (if (f i).bound = Bound.none then (i.bound.close_end).open_end else i.bound.close_end) ∧
      (split_consumed f i).1.as_dangerous =
        i.as_dangerous.take (i.byte_len - (f i).byte_len) := by
  intro i f
  have hmid : i.byte_len - (f i).byte_len ≤ i.byte_len := Nat.sub_le _ _
  have hhead := split_head_take i (i.byte_len - (f i).byte_len) hmid
  by_cases hb : (f i).bound = Bound.none
  · refine ⟨by simp [split_consumed, hb], ?_, ?_⟩
    · simp [split_consumed, hb, Bytes.into_unbound_end, Bytes.split_at_byte_unchecked]
    · simp only [split_consumed, hb, if_pos]
      simpa [Bytes.into_unbound_end, Bytes.as_dangerous] using hhead
  · refine ⟨by simp [split_consumed, hb], ?_, ?_⟩
    · simp [split_consumed, hb, Bytes.split_at_byte_unchecked]
    · simp only [split_consumed, hb, if_neg, ite_false]
      exact hhead

/-- C8: every big-endian (resp. little-endian) integer read equals
taking the fixed-size byte array and decoding it with the
corresponding byte shuffle, shown for `u32` and `u16` in both
endiannesses over arbitrary byte values; in particular
`read_all(read_u32_be)` on `[0x01, 0x02, 0x03, 0x04]` returns
`Ok(0x01020304)`. -/
theorem claim_C8 :
    ∀ b0 b1 b2 b3 : Nat,
      read_all read_u32_be (mk_input [b0, b1, b2, b3]) =
          Except.ok (b0 * 16777216 + b1 * 65536 + b2 * 256 + b3) ∧
        read_all read_u32_le (mk_input [b0, b1, b2, b3]) =
          Except.ok (b3 * 16777216 + b2 * 65536 + b1 * 256 + b0) ∧
        read_all read_u16_be (mk_input [b0, b1]) = Except.ok (b0 * 256 + b1) ∧
        read_all read_u16_le (mk_input [b0, b1]) = Except.ok (b1 * 256 + b0) ∧
        read_all read_u32_be (mk_input [1, 2, 3, 4]) = Except.ok 16909060 := by
  intro b0 b1 b2 b3
  refine ⟨?_, ?_, ?_, ?_, rfl⟩
  · show Except.ok ((((0 * 256 + b0) * 256 + b1) * 256 + b2) * 256 + b3) =
      Except.ok (b0 * 16777216 + b1 * 65536 + b2 * 256 + b3)
    exact congrArg Except.ok (by ring)
  · show Except.ok ((((0 * 256 + b3) * 256 + b2) * 256 + b1) * 256 + b0) =
      Except.ok (b3 * 16777216 + b2 * 65536 + b1 * 256 + b0)
    exact congrArg Except.ok (by ring)
  · show Except.ok ((0 * 256 + b0) * 256 + b1) = Except.ok (b0 * 256 + b1)
    exact congrArg Except.ok (by ring)
  · show Except.ok ((0 * 256 + b1) * 256 + b0) = Except.ok (b1 * 256 + b0)
    exact congrArg Except.ok (by ring)

/-- Helper: a `next` call preserves the cursor invariant. -/
theorem char_iter_next_inv (it : CharIter) (h : char_iter_inv it) :
    char_iter_inv it.next.2 := by
  unfold CharIter.next
  split
  · exact h
  · split
    · exact h
    · dsimp only
      split
      · exact ⟨Nat.le_refl _, h.2⟩
      · next hlt => exact ⟨Nat.le_of_not_lt hlt, h.2⟩

/-- Helper: a `next_back` call preserves the cursor invariant. -/
theorem char_iter_back_inv (it : CharIter) (h : char_iter_inv it) :
    char_iter_inv it.next_back.2 := by
  unfold CharIter.next_back
  split
  · exact h
  · split
    · exact h
    · dsimp only
      split
      · exact ⟨Nat.le_refl _, Nat.le_trans h.1 h.2⟩
      · next hlt =>
        exact ⟨Nat.le_of_not_lt hlt, Nat.le_trans (Nat.sub_le _ _) h.2⟩

/-- Helper: a `next` call never changes the backing bytes. -/
theorem char_iter_next_bytes (it : CharIter) : it.next.2.bytes = it.bytes := by
  unfold CharIter.next
  split
  · rfl
  · split
    · rfl
    · dsimp only
      split <;> rfl

/-- Helper: a `next_back` call never changes the backing bytes. -/
theorem char_iter_back_bytes (it : CharIter) : it.next_back.2.bytes = it.bytes := by
  unfold CharIter.next_back
  split
  · rfl
  · split
    · rfl
    · dsimp only
      split <;> rfl

/-- Helper: any sequence of calls preserves the invariant and the
backing bytes. -/
theorem char_iter_run_inv (calls : List Bool) :
    ∀ it : CharIter, char_iter_inv it →
      char_iter_inv (it.run calls) ∧ (it.run calls).bytes = it.bytes := by
  induction calls with
  | nil => intro it h; exact ⟨h, rfl⟩
  | cons d ds ih =>
    intro it h
    have hstep : char_iter_inv (it.step d) := by
      cases d
      · exact char_iter_back_inv it h
      · exact char_iter_next_inv it h
    have hbytes : (it.step d).bytes = it.bytes := by
      cases d
      · exact char_iter_back_bytes it
      · exact char_iter_next_bytes it
    have hrun : it.run (d :: ds) = (it.step d).run ds := by
      simp [CharIter.run, List.foldl_cons]
    have htl := ih (it.step d) hstep
    rw [hrun]
    exact ⟨htl.1, htl.2.trans hbytes⟩

/-- C9 counterexample: on the single invalid byte `0xFF`, `next`
returns `Some(Err(InvalidChar))` but the forward cursor stays at `0`
(it is *not* clamped to the backward cursor `1`) and the iterator is
*not* exhausted — the following `next` again returns `Some(..)`.  This
refutes the claimed clamp-and-exhaust behaviour on every invalid-UTF-8
encounter. -/
theorem claim_C9_counterexample :
    (CharIter.next (CharIter.new [255])).1 = some Option.none ∧
      (CharIter.next (CharIter.new [255])).2.forward = 0 ∧
      (CharIter.next (CharIter.new [255])).2.backward = 1 ∧
      (CharIter.next ((CharIter.next (CharIter.new [255])).2)).1 ≠ Option.none := by
  decide

/-- C9 (amended): for every `CharIter` and every sequence of `next` and
`next_back` calls, the invariant `forward ≤ backward ≤ bytes.length`
holds after each call and the backing bytes are unchanged, so
`as_slice` always denotes an in-bounds sub-slice of the original bytes.
(The moving cursor is clamped to the opposite cursor — exhausting the
iterator — only when a decoded codepoint would overrun the opposite
cursor; other invalid UTF-8 leaves the cursors unchanged.) -/
theorem claim_C9 :
    ∀ (bytes : List Nat) (calls : List Bool),
      char_iter_inv (CharIter.run (CharIter.new bytes) calls) ∧
        (CharIter.run (CharIter.new bytes) calls).bytes = bytes ∧
        List.IsInfix ((CharIter.run (CharIter.new bytes) calls).as_slice) bytes := by
  intro bytes calls
  have h0 : char_iter_inv (CharIter.new bytes) := ⟨Nat.zero_le _, Nat.le_refl _⟩
  have h := char_iter_run_inv calls (CharIter.new bytes) h0
  refine ⟨h.1, h.2, ?_⟩
  unfold CharIter.as_slice
  rw [h.2]
  have hp := List.take_prefix (CharIter.run (CharIter.new bytes) calls).backward bytes
  have hs := List.drop_suffix (CharIter.run (CharIter.new bytes) calls).forward
    (bytes.take (CharIter.run (CharIter.new bytes) calls).backward)
  exact List.IsInfix.trans (List.IsSuffix.isInfix hs) (List.IsPrefix.isInfix hp)
